import Mathlib

/-
  Verification of the ewsmon uptime/latency monitor.

  Shallow embedding of the dashboard logic (src/unnamed/part_000,
  src/unnamed/part_001, src/app/static/app.js) and, for the alerting
  engine whose backend implementation is not part of the repository
  snapshot, a model built from the specification and docs/ALERTS.md.
-/

namespace Ewsmon

/-- A probe result as consumed by the dashboard: timestamp in ms since
epoch, success flag, and an optional recorded duration in ms (absent on
transport failure). -/
structure ProbeResult where
  ts : Nat
  ok : Bool
  duration_ms : Option Nat
deriving Repr, DecidableEq

/-- A summary item as consumed by the dashboard table in
src/unnamed/part_000 (canonical fields that the defensive `pick` calls
resolve to). -/
structure SummaryItem where
  name : Option String
  service_name : Option String
  url : Option String
  is_up : Bool
  last_ms : Option Nat
deriving Repr, DecidableEq

/-- Embeds `pick(item, ["name", "service_name"]) ?? ""` from
src/unnamed/part_000. -/
def SummaryItem.pickName (it : SummaryItem) : String :=
  ((it.name).orElse (fun _ => it.service_name)).getD ""

/-- Embeds `pick(item, ["url"]) ?? ""` from src/unnamed/part_000. -/
def SummaryItem.pickUrl (it : SummaryItem) : String :=
  (it.url).getD ""

/-- Case-insensitive substring test, embedding a case-insensitive regex
literal test such as `/\(UAT\)/i.test(name)`. -/
def containsCI (pat s : String) : Bool :=
  decide ((pat.toList.map Char.toLower) <:+: (s.toList.map Char.toLower))

/-- Embeds `inferEnv` from src/unnamed/part_000 lines 40-45: "uat" if the
name contains "(UAT)" or the url contains "certwebservices", else
"prod". -/
def inferEnv (it : SummaryItem) : String :=
  if containsCI "(UAT)" it.pickName || containsCI "certwebservices" it.pickUrl then "uat"
  else "prod"

/-- Embeds `filterByEnv` from src/unnamed/part_000 lines 47-50. The env
argument is `none` for a missing value; `some ""` models any other falsy
string. -/
def filterByEnv (items : List SummaryItem) (env : Option String) : List SummaryItem :=
  match env with
  | none => items
  | some e => if e = "" || e = "all" then items else items.filter (fun it => inferEnv it == e)

/-- The degraded-latency threshold constant `DEGRADED_MS` from
src/unnamed/part_000 (same as the backend default, 1500 ms). -/
def DEGRADED_MS : Nat := 1500

/-- The degraded test used by both `computeTopStats` and `getStatusRank`
in src/unnamed/part_000: up, with a recorded latency at or above the
threshold (a missing latency gives NaN in the source and fails the
test). -/
def isDegraded (it : SummaryItem) : Bool :=
  it.is_up &&
    (match it.last_ms with
     | some ms => decide (DEGRADED_MS ≤ ms)
     | none => false)

/-- Embeds `getStatusRank` from src/unnamed/part_000 lines 197-204:
DOWN = 0, Degraded = 1, UP = 2. -/
def getStatusRank (it : SummaryItem) : Nat :=
  if !it.is_up then 0
  else if isDegraded it then 1 else 2

/-- The UP/DOWN label produced by `statusBadge` in
src/unnamed/part_000. -/
def statusBadgeLabel (isUp : Bool) : String :=
  if isUp then "UP" else "DOWN"

/-- The record returned by `computeTopStats` in src/unnamed/part_000
lines 172-185. -/
structure TopStats where
  svcCount : Nat
  upCount : Nat
  downCount : Nat
  degradedCount : Nat
deriving Repr, DecidableEq

/-- Embeds `computeTopStats` from src/unnamed/part_000 lines 172-185. -/
def computeTopStats (items : List SummaryItem) : TopStats :=
  let svcCount := items.length
  let upCount := (items.filter (fun x => x.is_up)).length
  let downCount := svcCount - upCount
  let degradedCount := (items.filter (fun it => isDegraded it)).length
  ⟨svcCount, upCount, downCount, degradedCount⟩

/-- Embeds one `replaceAll` call with a single-character pattern, as used
by `escapeHtml` in src/unnamed/part_000 lines 105-112. -/
def replaceAllChar (c : Char) (rep : List Char) (s : List Char) : List Char :=
  s.flatMap (fun x => if x = c then rep else [x])

/-- Embeds `escapeHtml` from src/unnamed/part_000 lines 105-112: the five
chained `replaceAll` calls, ampersand first. -/
def escapeHtml (s : List Char) : List Char :=
  replaceAllChar '\'' "&#039;".toList
    (replaceAllChar '"' "&quot;".toList
      (replaceAllChar '>' "&gt;".toList
        (replaceAllChar '<' "&lt;".toList
          (replaceAllChar '&' "&amp;".toList s))))

/-- The summary object consumed by `setSummaryFromApi` in
src/unnamed/part_000 lines 813-823 (the backend WindowSummary payload). -/
structure WindowSummary where
  total_probes : Nat
  success_count : Nat
  avg_ms : Option ℚ
  p95_ms : Option ℚ
deriving Repr, DecidableEq

/-- Embeds `setSummaryFromApi` from src/unnamed/part_000 lines 813-823:
with zero probes the function renders the no-data message and returns
before any division; otherwise it shows `success_count / total_probes`
as a percentage. The returned value is the displayed uptime percentage,
`none` for the no-data message. -/
def setSummaryFromApi (s : WindowSummary) : Option ℚ :=
  if s.total_probes = 0 then none
  else some ((s.success_count : ℚ) / (s.total_probes : ℚ) * 100)

/-- The recorded duration of a probe, with 0 standing in for a missing
one (only ever read on probes that were filtered to have one, except in
`bucketProbes` where the source itself substitutes 0). -/
def durOf (p : ProbeResult) : Nat := p.duration_ms.getD 0

/-- The numbers displayed by `setSummary` in src/unnamed/part_001
lines 730-741. -/
structure SummaryLine where
  total : Nat
  okCount : Nat
  pct : ℚ
  avg : ℚ
  p95 : Option ℚ
deriving Repr, DecidableEq

/-- Embeds `setSummary` from src/unnamed/part_001 lines 730-741: empty
probe list renders the no-data message (modelled as `none`); otherwise
the success percentage is over all probes, the average is over probes
with a recorded duration, and the p95 indexes the duration-sorted
probes at floor(0.95 * n). -/
def setSummary (probes : List ProbeResult) : Option SummaryLine :=
  if probes.isEmpty then none
  else
    let withMs := probes.filter (fun p => p.duration_ms.isSome)
    let okCount := (probes.filter (fun p => p.ok)).length
    let avg : ℚ :=
      if withMs.length = 0 then 0
      else ((withMs.map (fun p => (durOf p : ℚ))).sum) / (withMs.length : ℚ)
    let sorted := withMs.mergeSort (fun a b => decide (durOf a ≤ durOf b))
    let p95 : Option ℚ :=
      if sorted.length = 0 then none
      else (sorted[sorted.length * 95 / 100]?).map (fun p => (durOf p : ℚ))
    some ⟨probes.length, okCount, (okCount : ℚ) / (probes.length : ℚ) * 100, avg, p95⟩

/-- The durations recorded in a probe list, in order (the projection of
the `withMs` filter of `setSummary`). -/
def recordedDurations (probes : List ProbeResult) : List Nat :=
  (probes.filter (fun p => p.duration_ms.isSome)).map durOf

/-- The ten synthetic durations 10, 20, ..., 100 from the spec's
testable property for p95. -/
def syntheticProbes : List ProbeResult :=
  (List.range 10).map (fun i => ⟨i, true, some ((i + 1) * 10)⟩)

/-- The accumulator kept per bucket by `bucketProbes` in
src/unnamed/part_001 lines 661-687: `{ sumMs, count, okCount }`. -/
structure BucketAcc where
  sumMs : Nat
  count : Nat
  okCount : Nat
deriving Repr, DecidableEq

/-- `BUCKET_MINUTES` from src/unnamed/part_001 (5-minute buckets). -/
def BUCKET_MINUTES : Nat := 5

/-- The bucket width in milliseconds used by `bucketProbes`
(`BUCKET_MINUTES * 60 * 1000`). -/
def bucketMs : Nat := BUCKET_MINUTES * 60 * 1000

/-- The bucket start assigned to a probe by `bucketProbes`:
`Math.floor(ts / bucketMs) * bucketMs`. -/
def bucketKey (w : Nat) (p : ProbeResult) : Nat := p.ts / w * w

/-- One probe folded into a bucket accumulator, as in the loop body of
`bucketProbes`: the count always increments, okCount increments on
success, and a missing duration contributes 0 ms to the sum. -/
def bumpAcc (b : BucketAcc) (p : ProbeResult) : BucketAcc :=
  ⟨b.sumMs + durOf p, b.count + 1, b.okCount + (if p.ok then 1 else 0)⟩

/-- Adds one probe to the bucket map; the JS `Map` is modelled as an
insertion-ordered association list whose keys stay unique. -/
def addProbe (w : Nat) (l : List (Nat × BucketAcc)) (p : ProbeResult) :
    List (Nat × BucketAcc) :=
  match l with
  | [] => [(bucketKey w p, bumpAcc ⟨0, 0, 0⟩ p)]
  | (k, b) :: rest =>
    if k = bucketKey w p then (k, bumpAcc b p) :: rest
    else (k, b) :: addProbe w rest p

/-- The `byBucket` map of `bucketProbes` after its loop over the
probes. -/
def byBucket (w : Nat) (probes : List ProbeResult) : List (Nat × BucketAcc) :=
  probes.foldl (addProbe w) []

/-- The entries of the bucket map sorted ascending by bucket start, as
`bucketProbes` sorts them before deriving the label and data series. -/
def bucketEntries (w : Nat) (probes : List ProbeResult) : List (Nat × BucketAcc) :=
  (byBucket w probes).mergeSort (fun a b => decide (a.1 ≤ b.1))

/-- The average shown for one bucket accumulator
(`b.count ? b.sumMs / b.count : null`). -/
def avgOfAcc (b : BucketAcc) : Option ℚ :=
  if b.count = 0 then none else some ((b.sumMs : ℚ) / (b.count : ℚ))

/-- The result of `bucketProbes` (raw bucket starts standing in for the
locale-formatted labels). -/
structure BucketSeries where
  starts : List Nat
  avgMs : List (Option ℚ)
  successPct : List (Option ℚ)
deriving Repr, DecidableEq

/-- Embeds `bucketProbes` from src/unnamed/part_001 lines 661-687,
parametrized by the bucket width (the source fixes it to `bucketMs`). -/
def bucketProbes (w : Nat) (probes : List ProbeResult) : BucketSeries :=
  let sorted := bucketEntries w probes
  ⟨sorted.map (fun e => e.1),
   sorted.map (fun e => avgOfAcc e.2),
   sorted.map (fun e =>
     if e.2.count = 0 then none
     else some (((e.2.okCount : ℚ) / (e.2.count : ℚ)) * 100))⟩

/-- Looks up a bucket accumulator by key (the `Map.get` view of the
association list), defaulting to the fresh accumulator. -/
def accOf (l : List (Nat × BucketAcc)) (b : Nat) : BucketAcc :=
  match l.find? (fun e => e.1 == b) with
  | some e => e.2
  | none => ⟨0, 0, 0⟩

/-- Modelled from the spec: the claimed bucket average, following the
spec's words ("avg_duration_ms over probes with a recorded duration;
transport failures with no duration are excluded from the average"),
stated for comparison with the code's `bucketProbes`. -/
def specBucketAvgMs (w : Nat) (probes : List ProbeResult) (b : Nat) : Option ℚ :=
  let inB := probes.filter (fun p => bucketKey w p == b && p.duration_ms.isSome)
  if inB.length = 0 then none
  else some (((inB.map (fun p => (durOf p : ℚ))).sum) / (inB.length : ℚ))

/-- The two-probe input separating the code's bucket average from the
spec's: one 100 ms success and one transport failure with no duration,
in the same bucket. -/
def cexProbes : List ProbeResult :=
  [⟨0, true, some 100⟩, ⟨1, false, none⟩]

/-- A three-probe input spanning two buckets, used to witness the bucket
partition property. -/
def bucketDemoProbes : List ProbeResult :=
  [⟨0, true, some 100⟩, ⟨300000, false, none⟩, ⟨1, true, some 50⟩]

/-- A transition event emitted by the target state machine. -/
inductive TransitionEvent where
  | wentDown
  | recovered
deriving Repr, DecidableEq

/-- Modelled from the spec: the mutable `TargetState` of §3 (the
`lastAlertSentAt` field lives in the dispatcher model below). The
backend state machine implementation is not part of the repository
snapshot; docs/ALERTS.md documents its behaviour. -/
structure TargetState where
  isUp : Bool
  pendingRecovery : Bool
  consecutiveUpCount : Nat
deriving Repr, DecidableEq

/-- Modelled from the spec: the transition function of the
TargetStateMachine (§4.1, docs/ALERTS.md): a failed probe forces DOWN
and resets the recovery hysteresis, emitting WentDown on the UP→DOWN
edge; a successful probe after DOWN arms pendingRecovery with one
consecutive UP; a further UP while pending reaches 2 consecutive UPs and
emits Recovered; an UP while already stable does nothing. -/
def stepState (s : TargetState) (r : ProbeResult) :
    TargetState × Option TransitionEvent :=
  if !r.ok then
    (⟨false, false, 0⟩, if s.isUp then some TransitionEvent.wentDown else none)
  else if !s.isUp then
    (⟨true, true, 1⟩, none)
  else if s.pendingRecovery then
    if 2 ≤ s.consecutiveUpCount + 1 then
      (⟨true, false, s.consecutiveUpCount + 1⟩, some TransitionEvent.recovered)
    else
      (⟨true, true, s.consecutiveUpCount + 1⟩, none)
  else (s, none)

/-- Modelled from the spec: a fresh target starts UP with no pending
recovery. -/
def initialTargetState : TargetState := ⟨true, false, 0⟩

/-- The state after applying a probe sequence in order. -/
def runState (s : TargetState) (ps : List ProbeResult) : TargetState :=
  ps.foldl (fun st r => (stepState st r).1) s

/-- The per-probe emitted events of a probe sequence applied in order. -/
def runEvents (s : TargetState) : List ProbeResult → List (Option TransitionEvent)
  | [] => []
  | r :: rs => (stepState s r).2 :: runEvents (stepState s r).1 rs

/-- The ok flag of the probe at an index (`true` when out of range; the
indices the theorems use are always in range). -/
def okAt (ps : List ProbeResult) (i : Nat) : Bool :=
  match ps[i]? with
  | some p => p.ok
  | none => true

/-- The ok flag of the last probe of a prefix (`true` for the empty
prefix, matching the initial UP state). -/
def lastOk (ps : List ProbeResult) : Bool :=
  match ps.getLast? with
  | some p => p.ok
  | none => true

/-- Whether a prefix ends with a failed probe immediately followed by a
successful one — exactly the condition under which the state machine is
in pendingRecovery. -/
def endsDownUp (ps : List ProbeResult) : Bool :=
  lastOk ps && !(lastOk ps.dropLast)

/-- A DOWN, UP, UP probe sequence used as the concrete recovery
scenario. -/
def demoProbes : List ProbeResult :=
  [⟨0, false, none⟩, ⟨1, true, some 10⟩, ⟨2, true, some 10⟩]

/-- Modelled from the spec: the per-target dispatcher state
(`lastAlertSentAt`, DOWN alerts only; `null` before the first alert). -/
structure DispatcherState where
  lastAlertSentAt : Option Nat
deriving Repr, DecidableEq

/-- Modelled from the spec: `AlertDispatcher.onWentDown` (§4.2,
docs/ALERTS.md), whose backend implementation is not part of the
repository snapshot: if `now - lastAlertSentAt < cooldown` the alert is
suppressed and nothing else is updated; otherwise a DOWN notification is
dispatched and `lastAlertSentAt` is set to now. Returns the new state
and whether a notification was dispatched. -/
def onWentDown (cooldown now : Nat) (s : DispatcherState) : DispatcherState × Bool :=
  match s.lastAlertSentAt with
  | some t => if now - t < cooldown then (s, false) else (⟨some now⟩, true)
  | none => (⟨some now⟩, true)

/- Helper lemmas -/

lemma mem_replaceAllChar {c0 : Char} {rep s : List Char} {x : Char}
    (hx : x ∈ replaceAllChar c0 rep s) : x ∈ rep ∨ (x ∈ s ∧ x ≠ c0) := by
  rcases List.mem_flatMap.mp hx with ⟨a, ha, hmem⟩
  by_cases h : a = c0
  · subst h
    simp only [if_pos rfl] at hmem
    exact Or.inl hmem
  · simp only [if_neg h] at hmem
    rcases List.mem_singleton.mp hmem with rfl
    exact Or.inr ⟨ha, h⟩

lemma not_mem_replaceAllChar {c0 : Char} {rep s : List Char} {b : Char}
    (h1 : b ∉ rep) (h2 : b = c0 ∨ b ∉ s) : b ∉ replaceAllChar c0 rep s := by
  intro hb
  rcases mem_replaceAllChar hb with h | ⟨hs, hne⟩
  · exact h1 h
  · rcases h2 with rfl | h2
    · exact hne rfl
    · exact h2 hs

lemma mergeSort_map_durOf (l : List ProbeResult) :
    (l.mergeSort (fun a b => decide (durOf a ≤ durOf b))).map durOf
      = (l.map durOf).mergeSort (fun a b => decide (a ≤ b)) := by
  have hperm : ((l.mergeSort (fun a b => decide (durOf a ≤ durOf b))).map durOf).Perm
      ((l.map durOf).mergeSort (fun a b => decide (a ≤ b))) :=
    ((List.mergeSort_perm l _).map durOf).trans
      ((List.mergeSort_perm (l.map durOf) _).symm)
  have hs1 : List.Sorted (· ≤ ·)
      ((l.mergeSort (fun a b => decide (durOf a ≤ durOf b))).map durOf) := by
    have hp := @List.sorted_mergeSort ProbeResult
      (fun a b : ProbeResult => decide (durOf a ≤ durOf b))
      (fun a b c hab hbc =>
        decide_eq_true (Nat.le_trans (of_decide_eq_true hab) (of_decide_eq_true hbc)))
      (fun a b => by
        rcases Nat.le_total (durOf a) (durOf b) with h | h <;> simp [h]) l
    exact List.Pairwise.map durOf (fun a b hab => of_decide_eq_true hab) hp
  have hs2 : List.Sorted (· ≤ ·) ((l.map durOf).mergeSort (fun a b => decide (a ≤ b))) := by
    have hp := @List.sorted_mergeSort Nat (fun a b : Nat => decide (a ≤ b))
      (fun a b c hab hbc =>
        decide_eq_true (Nat.le_trans (of_decide_eq_true hab) (of_decide_eq_true hbc)))
      (fun a b => by rcases Nat.le_total a b with h | h <;> simp [h]) (l.map durOf)
    exact hp.imp (fun hab => of_decide_eq_true hab)
  exact List.eq_of_perm_of_sorted hperm hs1 hs2

lemma accOf_nil (b : Nat) : accOf [] b = ⟨0, 0, 0⟩ := rfl

lemma accOf_cons (k : Nat) (a : BucketAcc) (rest : List (Nat × BucketAcc)) (b : Nat) :
    accOf ((k, a) :: rest) b = if k = b then a else accOf rest b := by
  unfold accOf
  by_cases hb : k = b
  · rw [List.find?_cons_of_pos _ (by simp [hb]), if_pos hb]
  · rw [List.find?_cons_of_neg _ (by simp [hb]), if_neg hb]

lemma accOf_addProbe (w : Nat) (p : ProbeResult) (b : Nat) (l : List (Nat × BucketAcc)) :
    accOf (addProbe w l p) b
      = if bucketKey w p = b then bumpAcc (accOf l b) p else accOf l b := by
  induction l with
  | nil =>
    by_cases hb : bucketKey w p = b <;>
      simp [addProbe, accOf_cons, accOf_nil, hb]
  | cons head rest ih =>
    obtain ⟨k, a⟩ := head
    simp only [addProbe]
    by_cases hk : k = bucketKey w p
    · rw [if_pos hk]
      by_cases hb : k = b
      · rw [accOf_cons, if_pos hb, if_pos (hk.symm.trans hb), accOf_cons, if_pos hb]
      · rw [accOf_cons, if_neg hb, if_neg (fun h => hb (hk.trans h)), accOf_cons, if_neg hb]
    · rw [if_neg hk]
      by_cases hb : k = b
      · have hkb : ¬bucketKey w p = b := fun h => hk (hb.trans h.symm)
        rw [accOf_cons, if_pos hb, if_neg hkb, accOf_cons, if_pos hb]
      · rw [accOf_cons, if_neg hb, ih, accOf_cons, if_neg hb]

lemma accOf_foldl (w b : Nat) (probes : List ProbeResult) :
    ∀ l, accOf (probes.foldl (addProbe w) l) b
      = (probes.filter (fun p => bucketKey w p == b)).foldl bumpAcc (accOf l b) := by
  induction probes with
  | nil => intro l; rfl
  | cons p ps ih =>
    intro l
    rw [List.foldl_cons, ih, accOf_addProbe]
    by_cases hb : bucketKey w p = b
    · rw [if_pos hb, List.filter_cons_of_pos (by simp [hb]), List.foldl_cons]
    · rw [if_neg hb, List.filter_cons_of_neg (by simp [hb])]

lemma foldl_bumpAcc_count (ps : List ProbeResult) :
    ∀ a : BucketAcc, (ps.foldl bumpAcc a).count = a.count + ps.length := by
  induction ps with
  | nil => intro a; simp
  | cons p ps ih =>
    intro a
    rw [List.foldl_cons, ih]
    simp [bumpAcc]
    omega

lemma foldl_bumpAcc_sumMs (ps : List ProbeResult) :
    ∀ a : BucketAcc, (ps.foldl bumpAcc a).sumMs = a.sumMs + (ps.map durOf).sum := by
  induction ps with
  | nil => intro a; simp
  | cons p ps ih =>
    intro a
    rw [List.foldl_cons, ih]
    simp [bumpAcc]
    omega

lemma count_byBucket (w b : Nat) (probes : List ProbeResult) :
    (accOf (byBucket w probes) b).count
      = (probes.filter (fun p => bucketKey w p == b)).length := by
  rw [byBucket, accOf_foldl, foldl_bumpAcc_count, accOf_nil]
  simp

lemma sumMs_byBucket (w b : Nat) (probes : List ProbeResult) :
    (accOf (byBucket w probes) b).sumMs
      = ((probes.filter (fun p => bucketKey w p == b)).map durOf).sum := by
  rw [byBucket, accOf_foldl, foldl_bumpAcc_sumMs, accOf_nil]
  simp

lemma keys_addProbe (w : Nat) (p : ProbeResult) (l : List (Nat × BucketAcc)) :
    (addProbe w l p).map Prod.fst
      = if bucketKey w p ∈ l.map Prod.fst then l.map Prod.fst
        else l.map Prod.fst ++ [bucketKey w p] := by
  induction l with
  | nil => simp [addProbe]
  | cons head rest ih =>
    obtain ⟨k, a⟩ := head
    by_cases hk : k = bucketKey w p
    · simp [addProbe, hk]
    · by_cases hmem : bucketKey w p ∈ rest.map Prod.fst
      · simp [addProbe, hk, ih, hmem, Ne.symm hk]
      · simp [addProbe, hk, ih, hmem, Ne.symm hk]

lemma nodup_keys_foldl (w : Nat) (probes : List ProbeResult) :
    ∀ l : List (Nat × BucketAcc), (l.map Prod.fst).Nodup →
      ((probes.foldl (addProbe w) l).map Prod.fst).Nodup := by
  induction probes with
  | nil => intro l h; exact h
  | cons p ps ih =>
    intro l h
    rw [List.foldl_cons]
    apply ih
    rw [keys_addProbe]
    by_cases hmem : bucketKey w p ∈ l.map Prod.fst
    · rw [if_pos hmem]; exact h
    · rw [if_neg hmem]
      refine List.nodup_append.mpr ⟨h, List.nodup_singleton _, ?_⟩
      intro x hx hx1
      rw [List.mem_singleton] at hx1
      exact hmem (hx1 ▸ hx)

lemma nodup_keys_byBucket (w : Nat) (probes : List ProbeResult) :
    ((byBucket w probes).map Prod.fst).Nodup :=
  nodup_keys_foldl w probes [] (by simp)

lemma accOf_of_mem (b : Nat) (acc : BucketAcc) (l : List (Nat × BucketAcc))
    (hnd : (l.map Prod.fst).Nodup) (hmem : (b, acc) ∈ l) : accOf l b = acc := by
  induction l with
  | nil => exact absurd hmem (List.not_mem_nil _)
  | cons head rest ih =>
    obtain ⟨k, a⟩ := head
    rw [List.map_cons, List.nodup_cons] at hnd
    rcases List.mem_cons.mp hmem with heq | htail
    · obtain ⟨rfl, rfl⟩ := Prod.mk.injEq .. |>.mp heq.symm
      rw [accOf_cons, if_pos rfl]
    · have hb : b ∈ rest.map Prod.fst := List.mem_map.mpr ⟨(b, acc), htail, rfl⟩
      have hk : k ≠ b := fun h => hnd.1 (h ▸ hb)
      rw [accOf_cons, if_neg hk]
      exact ih hnd.2 htail

lemma mem_of_count_ne_zero (l : List (Nat × BucketAcc)) (b : Nat)
    (h : (accOf l b).count ≠ 0) : (b, accOf l b) ∈ l := by
  cases hf : l.find? (fun e => e.1 == b) with
  | none =>
    exfalso
    apply h
    unfold accOf
    rw [hf]
  | some e =>
    obtain ⟨e1, e2⟩ := e
    have he : e1 = b := by simpa using List.find?_some hf
    subst he
    have hm := List.mem_of_find?_eq_some hf
    have hacc : accOf l e1 = e2 := by unfold accOf; rw [hf]
    rw [hacc]
    exact hm

lemma count_pos_addProbe (w : Nat) (p : ProbeResult) (l : List (Nat × BucketAcc))
    (h : ∀ e ∈ l, 0 < e.2.count) : ∀ e ∈ addProbe w l p, 0 < e.2.count := by
  induction l with
  | nil =>
    intro e he
    rw [addProbe, List.mem_singleton] at he
    subst he
    simp [bumpAcc]
  | cons head rest ih =>
    obtain ⟨k, a⟩ := head
    intro e he
    by_cases hk : k = bucketKey w p
    · rw [addProbe, if_pos hk] at he
      rcases List.mem_cons.mp he with rfl | htail
      · simp [bumpAcc]
      · exact h e (List.mem_cons_of_mem _ htail)
    · rw [addProbe, if_neg hk] at he
      rcases List.mem_cons.mp he with rfl | htail
      · exact h _ (List.mem_cons_self _ _)
      · exact ih (fun e' he' => h e' (List.mem_cons_of_mem _ he')) e htail

lemma count_pos_byBucket (w : Nat) (probes : List ProbeResult) :
    ∀ e ∈ byBucket w probes, 0 < e.2.count := by
  rw [byBucket]
  have hgen : ∀ (ps : List ProbeResult) (l : List (Nat × BucketAcc)),
      (∀ e ∈ l, 0 < e.2.count) → ∀ e ∈ ps.foldl (addProbe w) l, 0 < e.2.count := by
    intro ps
    induction ps with
    | nil => intro l h; exact h
    | cons p ps ih =>
      intro l h
      rw [List.foldl_cons]
      exact ih _ (count_pos_addProbe w p l h)
  exact hgen probes [] (by simp)

lemma sum_counts_addProbe (w : Nat) (p : ProbeResult) (l : List (Nat × BucketAcc)) :
    ((addProbe w l p).map (fun e => e.2.count)).sum
      = ((l.map (fun e => e.2.count)).sum) + 1 := by
  induction l with
  | nil => simp [addProbe, bumpAcc]
  | cons head rest ih =>
    obtain ⟨k, a⟩ := head
    by_cases hk : k = bucketKey w p
    · simp [addProbe, hk, bumpAcc]
      omega
    · simp [addProbe, hk, ih]
      omega

lemma sum_counts_foldl (w : Nat) (probes : List ProbeResult) :
    ∀ l : List (Nat × BucketAcc),
      ((probes.foldl (addProbe w) l).map (fun e => e.2.count)).sum
        = ((l.map (fun e => e.2.count)).sum) + probes.length := by
  induction probes with
  | nil => intro l; simp
  | cons p ps ih =>
    intro l
    rw [List.foldl_cons, ih, sum_counts_addProbe]
    simp
    omega

lemma runEvents_getElem? (ps : List ProbeResult) :
    ∀ (s : TargetState) (i : Nat),
      (runEvents s ps)[i]?
        = (ps[i]?).map (fun r => (stepState (runState s (ps.take i)) r).2) := by
  induction ps with
  | nil => intro s i; simp [runEvents]
  | cons r rs ih =>
    intro s i
    cases i with
    | zero => simp [runEvents, runState]
    | succ j =>
      rw [runEvents]
      rw [List.getElem?_cons_succ, List.getElem?_cons_succ, ih]
      rw [List.take_succ_cons]
      rfl

lemma runState_char (ps : List ProbeResult) :
    (runState initialTargetState ps).isUp = lastOk ps ∧
    (runState initialTargetState ps).pendingRecovery = endsDownUp ps ∧
    ((runState initialTargetState ps).pendingRecovery = true →
      (runState initialTargetState ps).consecutiveUpCount = 1) := by
  induction ps using List.reverseRecOn with
  | nil => simp [runState, lastOk, endsDownUp, initialTargetState]
  | append_singleton ps p ih =>
    obtain ⟨ih1, ih2, ih3⟩ := ih
    have hrun : runState initialTargetState (ps ++ [p])
        = (stepState (runState initialTargetState ps) p).1 := by
      rw [runState, List.foldl_append]
      rfl
    have hlast : lastOk (ps ++ [p]) = p.ok := by
      rw [lastOk, List.getLast?_concat]
    have hends : endsDownUp (ps ++ [p]) = (p.ok && !(lastOk ps)) := by
      rw [endsDownUp, hlast, List.dropLast_concat]
    rw [hrun, hlast, hends]
    cases hok : p.ok with
    | false => simp [stepState, hok]
    | true =>
      cases hup : (runState initialTargetState ps).isUp with
      | false =>
        rw [hup] at ih1
        simp [stepState, hok, hup, ← ih1]
      | true =>
        rw [hup] at ih1
        cases hpend : (runState initialTargetState ps).pendingRecovery with
        | true =>
          have hcnt := ih3 hpend
          simp [stepState, hok, hup, hpend, hcnt, ← ih1]
        | false =>
          simp [stepState, hok, hup, hpend, ← ih1]

lemma stepState_recovered_iff (s : TargetState) (r : ProbeResult)
    (hcnt : s.pendingRecovery = true → s.consecutiveUpCount = 1) :
    ((stepState s r).2 = some TransitionEvent.recovered) ↔
      (r.ok = true ∧ s.isUp = true ∧ s.pendingRecovery = true) := by
  cases hok : r.ok with
  | false =>
    cases hup : s.isUp <;> simp [stepState, hok, hup]
  | true =>
    cases hup : s.isUp with
    | false => simp [stepState, hok, hup]
    | true =>
      cases hpend : s.pendingRecovery with
      | true => simp [stepState, hok, hup, hpend, hcnt hpend]
      | false => simp [stepState, hok, hup, hpend]

lemma lastOk_take (ps : List ProbeResult) (i : Nat) (h1 : 0 < i) (h2 : i ≤ ps.length) :
    lastOk (ps.take i) = okAt ps (i - 1) := by
  have hlen : (ps.take i).length = i := by
    rw [List.length_take]
    omega
  rw [lastOk, List.getLast?_eq_getElem?, hlen, List.getElem?_take, if_pos (by omega)]
  rfl

lemma dropLast_take (ps : List ProbeResult) (i : Nat) (h2 : i ≤ ps.length) :
    (ps.take i).dropLast = ps.take (i - 1) := by
  rw [List.dropLast_eq_take, List.length_take, List.take_take]
  congr 1
  omega

lemma endsDownUp_take (ps : List ProbeResult) (i : Nat) (h1 : 2 ≤ i) (h2 : i ≤ ps.length) :
    endsDownUp (ps.take i) = (okAt ps (i - 1) && !(okAt ps (i - 2))) := by
  rw [endsDownUp, lastOk_take ps i (by omega) h2, dropLast_take ps i h2,
    lastOk_take ps (i - 1) (by omega) (by omega)]
  have : i - 1 - 1 = i - 2 := by omega
  rw [this]

lemma endsDownUp_take_small (ps : List ProbeResult) (i : Nat) (h : i ≤ 1) :
    endsDownUp (ps.take i) = false := by
  match i, h with
  | 0, _ => rfl
  | 1, _ =>
    cases ps with
    | nil => rfl
    | cons a l =>
      simp [endsDownUp, lastOk]

end Ewsmon

namespace Ewsmon

/-- C8: environment filtering is an identity when the filter is absent,
empty, or "all"; `inferEnv` is total with range {"uat", "prod"}; and an
item of the input appears in exactly one of the "prod" and "uat"
filterings. -/
theorem filterByEnv_identity_and_partition (items : List SummaryItem) :
    filterByEnv items none = items ∧
    filterByEnv items (some "") = items ∧
    filterByEnv items (some "all") = items ∧
    (∀ it : SummaryItem, inferEnv it = "uat" ∨ inferEnv it = "prod") ∧
    (∀ it ∈ items,
      (it ∈ filterByEnv items (some "prod") ↔ it ∉ filterByEnv items (some "uat"))) := by
  refine ⟨rfl, rfl, rfl, ?_, ?_⟩
  · intro it
    by_cases h : (containsCI "(UAT)" it.pickName || containsCI "certwebservices" it.pickUrl) = true
    · exact Or.inl (by simp [inferEnv, h])
    · exact Or.inr (by simp [inferEnv, h])
  · intro it hit
    have htot : inferEnv it = "uat" ∨ inferEnv it = "prod" := by
      by_cases h : (containsCI "(UAT)" it.pickName || containsCI "certwebservices" it.pickUrl) = true
      · exact Or.inl (by simp [inferEnv, h])
      · exact Or.inr (by simp [inferEnv, h])
    simp only [filterByEnv, List.mem_filter]
    rcases htot with h | h <;> simp [h, hit]

/-- Witness for C8 at a concrete two-item list: the UAT-named item lands
in the "uat" filtering only. -/
theorem filterByEnv_identity_and_partition_witness :
    let a : SummaryItem := ⟨some "Svc (UAT)", none, some "https://x", true, none⟩
    let b : SummaryItem := ⟨some "Svc", none, some "https://y", true, none⟩
    (a ∈ filterByEnv [a, b] (some "prod") ↔ a ∉ filterByEnv [a, b] (some "uat")) :=
  (filterByEnv_identity_and_partition
      [⟨some "Svc (UAT)", none, some "https://x", true, none⟩,
       ⟨some "Svc", none, some "https://y", true, none⟩]).2.2.2.2
    ⟨some "Svc (UAT)", none, some "https://x", true, none⟩ (by decide)

/-- C6: an item is degraded exactly when it is up and has a recorded
last duration at or above the 1500 ms threshold; an item that is not up
is never degraded; and the UP/DOWN classification (badge label, and the
rank-0 = DOWN bucket of `getStatusRank`) depends only on `is_up`, not on
degradedness. -/
theorem degraded_characterization (it : SummaryItem) :
    (isDegraded it = true ↔
      it.is_up = true ∧ ∃ ms, it.last_ms = some ms ∧ DEGRADED_MS ≤ ms) ∧
    (it.is_up = false → isDegraded it = false) ∧
    (statusBadgeLabel it.is_up = "UP" ↔ it.is_up = true) ∧
    (getStatusRank it = 0 ↔ it.is_up = false) := by
  refine ⟨?_, ?_, ?_, ?_⟩
  · constructor
    · intro h
      rcases Bool.and_eq_true_iff.mp h with ⟨hup, hms⟩
      refine ⟨hup, ?_⟩
      cases hl : it.last_ms with
      | none => rw [hl] at hms; exact absurd hms (by simp)
      | some ms =>
        rw [hl] at hms
        exact ⟨ms, rfl, of_decide_eq_true hms⟩
    · rintro ⟨hup, ms, hl, hms⟩
      simp [isDegraded, hup, hl, hms]
  · intro h
    simp [isDegraded, h]
  · cases h : it.is_up <;> simp [statusBadgeLabel, h]
  · cases h : it.is_up
    · simp [getStatusRank, h]
    · by_cases hd : isDegraded it = true <;> simp [getStatusRank, h, hd]

/-- C9: `computeTopStats` counters satisfy upCount + downCount = svcCount
and degradedCount ≤ upCount. -/
theorem computeTopStats_invariant (items : List SummaryItem) :
    (computeTopStats items).upCount + (computeTopStats items).downCount
        = (computeTopStats items).svcCount ∧
    (computeTopStats items).degradedCount ≤ (computeTopStats items).upCount := by
  constructor
  · have hle : (items.filter (fun x => x.is_up)).length ≤ items.length :=
      List.length_filter_le _ _
    simp only [computeTopStats]
    omega
  · simp only [computeTopStats, ← List.countP_eq_length_filter]
    exact List.countP_mono_left (fun x _ h => Bool.and_eq_true_iff.mp h |>.1)

/-- C10: the output of `escapeHtml` never contains a raw angle bracket,
double quote, or single quote, so interpolated values cannot open a tag
or escape an attribute. -/
theorem escapeHtml_no_dangerous_chars (s : List Char) :
    '<' ∉ escapeHtml s ∧ '>' ∉ escapeHtml s ∧
    '"' ∉ escapeHtml s ∧ '\'' ∉ escapeHtml s := by
  refine ⟨?_, ?_, ?_, ?_⟩
  · exact not_mem_replaceAllChar (by decide)
      (Or.inr (not_mem_replaceAllChar (by decide)
        (Or.inr (not_mem_replaceAllChar (by decide)
          (Or.inr (not_mem_replaceAllChar (by decide) (Or.inl rfl)))))))
  · exact not_mem_replaceAllChar (by decide)
      (Or.inr (not_mem_replaceAllChar (by decide)
        (Or.inr (not_mem_replaceAllChar (by decide) (Or.inl rfl)))))
  · exact not_mem_replaceAllChar (by decide)
      (Or.inr (not_mem_replaceAllChar (by decide) (Or.inl rfl)))
  · exact not_mem_replaceAllChar (by decide) (Or.inl rfl)

/-- C7: the uptime ratio is shown only when `total_probes > 0`; a range
with zero probes yields the no-data result (`none`) from both summary
renderers, and the divisor is provably nonzero whenever the ratio is
formed. -/
theorem uptime_guarded (s : WindowSummary) (probes : List ProbeResult) :
    (setSummaryFromApi s = none ↔ s.total_probes = 0) ∧
    (s.total_probes ≠ 0 →
      (s.total_probes : ℚ) ≠ 0 ∧
      setSummaryFromApi s = some ((s.success_count : ℚ) / (s.total_probes : ℚ) * 100)) ∧
    (setSummary probes = none ↔ probes = []) := by
  refine ⟨?_, ?_, ?_⟩
  · by_cases h : s.total_probes = 0 <;> simp [setSummaryFromApi, h]
  · intro h
    exact ⟨Nat.cast_ne_zero.mpr h, by simp [setSummaryFromApi, h]⟩
  · cases probes <;> simp [setSummary]

/-- Witness for C7: a zero-probe summary yields no uptime value, a 3/4
summary yields the 75 percent ratio. -/
theorem uptime_guarded_witness :
    setSummaryFromApi ⟨0, 0, none, none⟩ = none ∧
    setSummaryFromApi ⟨4, 3, none, none⟩ = some ((3 : ℚ) / (4 : ℚ) * 100) :=
  ⟨(uptime_guarded ⟨0, 0, none, none⟩ []).1.mpr rfl,
   ((uptime_guarded ⟨4, 3, none, none⟩ []).2.1 (by decide)).2⟩

/-- C5: whenever at least one duration is recorded, the p95 shown by
`setSummary` is exactly the element at index floor(0.95 * n) of the n
recorded durations sorted ascending. -/
theorem p95_is_sorted_index (probes : List ProbeResult)
    (h : 0 < (recordedDurations probes).length) :
    ∃ v : Nat,
      ((recordedDurations probes).mergeSort (fun a b => decide (a ≤ b)))[
          (recordedDurations probes).length * 95 / 100]? = some v ∧
      (setSummary probes).map SummaryLine.p95 = some (some (v : ℚ)) := by
  have hw : 0 < (probes.filter (fun p => p.duration_ms.isSome)).length := by
    simpa [recordedDurations] using h
  have hne : probes.isEmpty = false := by
    cases probes with
    | nil => simp at hw
    | cons a l => rfl
  have hslen : ((probes.filter (fun p => p.duration_ms.isSome)).mergeSort
      (fun a b => decide (durOf a ≤ durOf b))).length
      = (probes.filter (fun p => p.duration_ms.isSome)).length :=
    List.length_mergeSort _
  have hidx : (probes.filter (fun p => p.duration_ms.isSome)).length * 95 / 100
      < (probes.filter (fun p => p.duration_ms.isSome)).length :=
    Nat.div_lt_of_lt_mul (by omega)
  have hidx' : (probes.filter (fun p => p.duration_ms.isSome)).length * 95 / 100
      < ((probes.filter (fun p => p.duration_ms.isSome)).mergeSort
          (fun a b => decide (durOf a ≤ durOf b))).length := by
    rw [hslen]; exact hidx
  refine ⟨durOf (((probes.filter (fun p => p.duration_ms.isSome)).mergeSort
      (fun a b => decide (durOf a ≤ durOf b))).get
        ⟨(probes.filter (fun p => p.duration_ms.isSome)).length * 95 / 100, hidx'⟩), ?_, ?_⟩
  · have hn : (recordedDurations probes).length
        = (probes.filter (fun p => p.duration_ms.isSome)).length := by
      simp [recordedDurations]
    have hrd : (recordedDurations probes).mergeSort (fun a b => decide (a ≤ b))
        = ((probes.filter (fun p => p.duration_ms.isSome)).mergeSort
            (fun a b => decide (durOf a ≤ durOf b))).map durOf :=
      (mergeSort_map_durOf _).symm
    rw [hn, hrd, List.getElem?_map, List.getElem?_eq_getElem hidx']
    rfl
  · simp only [setSummary, hne, Bool.false_eq_true, if_false, Option.map_some]
    simp only [hslen, Nat.pos_iff_ne_zero.mp hw, if_false]
    rw [List.getElem?_eq_getElem hidx']
    rfl

/-- Witness for C5 at the synthetic list of ten durations
10, 20, ..., 100. -/
theorem p95_is_sorted_index_witness :
    0 < (recordedDurations syntheticProbes).length ∧
    ∃ v : Nat,
      ((recordedDurations syntheticProbes).mergeSort (fun a b => decide (a ≤ b)))[
          (recordedDurations syntheticProbes).length * 95 / 100]? = some v ∧
      (setSummary syntheticProbes).map SummaryLine.p95 = some (some (v : ℚ)) :=
  ⟨by decide, p95_is_sorted_index syntheticProbes (by decide)⟩

/-- C3: bucketing partitions the probes — per-bucket counts sum to the
total probe count, every bucket's count equals the number of probes
whose timestamp floors into it, and every probe's floor bucket is
present — so no probe is dropped or double-counted. -/
theorem bucket_partition (w : Nat) (hw : 0 < w) (probes : List ProbeResult) :
    ((bucketEntries w probes).map (fun e => e.2.count)).sum = probes.length ∧
    (∀ b acc, (b, acc) ∈ bucketEntries w probes →
      acc.count = (probes.filter (fun p => bucketKey w p == b)).length) ∧
    (∀ p ∈ probes, ∃ acc, (bucketKey w p, acc) ∈ bucketEntries w probes) := by
  refine ⟨?_, ?_, ?_⟩
  · have hperm : ((bucketEntries w probes).map (fun e => e.2.count)).Perm
        ((byBucket w probes).map (fun e => e.2.count)) :=
      (List.mergeSort_perm (byBucket w probes) _).map _
    rw [hperm.sum_eq, byBucket, sum_counts_foldl]
    simp
  · intro b acc hmem
    have hmem' : (b, acc) ∈ byBucket w probes :=
      (List.mergeSort_perm (byBucket w probes) _).mem_iff.mp hmem
    have hacc : accOf (byBucket w probes) b = acc :=
      accOf_of_mem b acc _ (nodup_keys_byBucket w probes) hmem'
    rw [← hacc, count_byBucket]
  · intro p hp
    have hfil : p ∈ probes.filter (fun q => bucketKey w q == bucketKey w p) :=
      List.mem_filter.mpr ⟨hp, by simp⟩
    have hpos : 0 < (probes.filter (fun q => bucketKey w q == bucketKey w p)).length :=
      List.length_pos.mpr (List.ne_nil_of_mem hfil)
    have hne : (accOf (byBucket w probes) (bucketKey w p)).count ≠ 0 := by
      rw [count_byBucket]
      omega
    exact ⟨accOf (byBucket w probes) (bucketKey w p),
      (List.mergeSort_perm (byBucket w probes) _).mem_iff.mpr
        (mem_of_count_ne_zero _ _ hne)⟩

/-- Witness for C3 at a concrete three-probe, two-bucket input. -/
theorem bucket_partition_witness :
    0 < bucketMs ∧
    ((bucketEntries bucketMs bucketDemoProbes).map (fun e => e.2.count)).sum
      = bucketDemoProbes.length :=
  ⟨by decide, (bucket_partition bucketMs (by decide) bucketDemoProbes).1⟩

/-- Counterexample to C4 as stated: with one 100 ms success and one
transport failure with no duration in the same bucket, `bucketProbes`
reports an average of 50 ms (the missing duration enters the sum as 0
and the denominator as 1), while the spec's average over only the
recorded durations is 100 ms. -/
theorem bucket_avg_counterexample :
    (bucketProbes bucketMs cexProbes).avgMs = [some ((50 : ℚ))] ∧
    specBucketAvgMs bucketMs cexProbes 0 = some ((100 : ℚ)) ∧
    ((50 : ℚ)) ≠ ((100 : ℚ)) := by
  refine ⟨?_, ?_, by norm_num⟩
  · have h1 : byBucket bucketMs cexProbes = [(0, ⟨100, 2, 1⟩)] := by decide
    simp only [bucketProbes, bucketEntries, h1, List.mergeSort_singleton,
      List.map_cons, List.map_nil, avgOfAcc]
    norm_num
  · have h2 : cexProbes.filter
        (fun p => bucketKey bucketMs p == 0 && p.duration_ms.isSome)
        = [⟨0, true, some 100⟩] := by decide
    simp only [specBucketAvgMs, h2, List.length_cons, List.length_nil,
      List.map_cons, List.map_nil]
    norm_num [durOf]

/-- C4 amended: the average shown for every bucket is the sum of the
recorded durations of ALL probes in the bucket — a missing duration
contributing 0 ms — divided by the bucket's full probe count; probes
without a duration are counted in the denominator as well as in
probe_count. -/
theorem bucket_avg_amended (w : Nat) (hw : 0 < w) (probes : List ProbeResult)
    (b : Nat) (acc : BucketAcc) (hmem : (b, acc) ∈ bucketEntries w probes) :
    acc.count = (probes.filter (fun p => bucketKey w p == b)).length ∧
    acc.sumMs = ((probes.filter (fun p => bucketKey w p == b)).map durOf).sum ∧
    avgOfAcc acc
      = some (((((probes.filter (fun p => bucketKey w p == b)).map durOf).sum : ℚ))
          / (((probes.filter (fun p => bucketKey w p == b)).length : ℚ))) := by
  have hmem' : (b, acc) ∈ byBucket w probes :=
    (List.mergeSort_perm (byBucket w probes) _).mem_iff.mp hmem
  have hacc : accOf (byBucket w probes) b = acc :=
    accOf_of_mem b acc _ (nodup_keys_byBucket w probes) hmem'
  have hcount : acc.count = (probes.filter (fun p => bucketKey w p == b)).length := by
    rw [← hacc, count_byBucket]
  have hsum : acc.sumMs = ((probes.filter (fun p => bucketKey w p == b)).map durOf).sum := by
    rw [← hacc, sumMs_byBucket]
  have hpos : 0 < acc.count := count_pos_byBucket w probes (b, acc) hmem'
  refine ⟨hcount, hsum, ?_⟩
  rw [avgOfAcc, if_neg (by omega)]
  rw [hcount, hsum]

/-- Witness for C4's amended theorem at the concrete two-probe input. -/
theorem bucket_avg_amended_witness :
    avgOfAcc ⟨100, 2, 1⟩
      = some (((((cexProbes.filter (fun p => bucketKey bucketMs p == 0)).map durOf).sum : ℚ))
          / (((cexProbes.filter (fun p => bucketKey bucketMs p == 0)).length : ℚ))) :=
  (bucket_avg_amended bucketMs (by decide) cexProbes 0 ⟨100, 2, 1⟩
    (by
      have h1 : byBucket bucketMs cexProbes = [(0, ⟨100, 2, 1⟩)] := by decide
      rw [bucketEntries, h1, List.mergeSort_singleton]
      exact List.mem_singleton.mpr rfl)).2.2

/-- C1: running any probe sequence from the initial state, the Recovered
event is emitted at position i exactly when probe i is the 2nd
consecutive UP following a DOWN — probes i and i-1 are UP and probe i-2
is DOWN. In particular it never fires on the 1st UP after a DOWN (then
probe i-1 is the DOWN) and never fires later than the 2nd consecutive UP
(then probe i-2 is also UP). -/
theorem recovered_on_second_consecutive_up (ps : List ProbeResult) (i : Nat) :
    (runEvents initialTargetState ps)[i]? = some (some TransitionEvent.recovered) ↔
      (2 ≤ i ∧ i < ps.length ∧
        okAt ps i = true ∧ okAt ps (i - 1) = true ∧ okAt ps (i - 2) = false) := by
  rw [runEvents_getElem?]
  cases hpi : ps[i]? with
  | none =>
    have hlen : ¬i < ps.length := by
      intro hlt
      rw [List.getElem?_eq_getElem hlt] at hpi
      exact absurd hpi (by simp)
    constructor
    · intro h
      exact absurd h (by simp)
    · rintro ⟨-, h2, -⟩
      exact absurd h2 hlen
  | some r =>
    obtain ⟨hlt, -⟩ := List.getElem?_eq_some_iff.mp hpi
    rw [Option.map_some']
    have hok_i : okAt ps i = r.ok := by
      rw [okAt, hpi]
    obtain ⟨hc1, hc2, hc3⟩ := runState_char (ps.take i)
    rw [Option.some_inj, stepState_recovered_iff _ _ hc3, hc1, hc2]
    by_cases hi2 : 2 ≤ i
    · rw [endsDownUp_take ps i hi2 (le_of_lt hlt),
        lastOk_take ps i (by omega) (le_of_lt hlt)]
      constructor
      · rintro ⟨hr, hup, hpend⟩
        rw [Bool.and_eq_true] at hpend
        refine ⟨hi2, hlt, by rw [hok_i]; exact hr, hpend.1, by simpa using hpend.2⟩
      · rintro ⟨-, -, h3, h4, h5⟩
        rw [hok_i] at h3
        exact ⟨h3, h4, by simp [h4, h5]⟩
    · rw [endsDownUp_take_small ps i (by omega)]
      constructor
      · rintro ⟨-, -, hpend⟩
        exact absurd hpend (by simp)
      · rintro ⟨h1, -⟩
        exact absurd h1 hi2

/-- Witness for C1: on the DOWN, UP, UP sequence the Recovered event is
emitted exactly at the third probe. -/
theorem recovered_on_second_consecutive_up_witness :
    (runEvents initialTargetState demoProbes)[2]? = some (some TransitionEvent.recovered) :=
  (recovered_on_second_consecutive_up demoProbes 2).mpr (by decide)

/-- C2: with a 300 s cooldown and no prior alert, the first DOWN
transition always dispatches; a second DOWN transition dispatches again
exactly when at least 300 s have elapsed (so two transitions less than
300 s apart dispatch at most one notification, while one 301 s later
dispatches a second), and a suppressed second transition leaves the
dispatcher state untouched. -/
theorem cooldown_suppression (t1 t2 : Nat) :
    (onWentDown 300 t1 ⟨none⟩).2 = true ∧
    (t2 - t1 < 300 →
      (onWentDown 300 t2 (onWentDown 300 t1 ⟨none⟩).1).2 = false ∧
      (onWentDown 300 t2 (onWentDown 300 t1 ⟨none⟩).1).1 = (onWentDown 300 t1 ⟨none⟩).1) ∧
    (t2 = t1 + 301 →
      (onWentDown 300 t2 (onWentDown 300 t1 ⟨none⟩).1).2 = true) := by
  refine ⟨rfl, ?_, ?_⟩
  · intro h
    simp [onWentDown, h]
  · intro h
    have : ¬t2 - t1 < 300 := by omega
    simp [onWentDown, this]

/-- Witness for C2: from a first DOWN alert at t = 0, a second DOWN 100 s
later is suppressed and one 301 s later is dispatched. -/
theorem cooldown_suppression_witness :
    (onWentDown 300 100 (onWentDown 300 0 ⟨none⟩).1).2 = false ∧
    (onWentDown 300 301 (onWentDown 300 0 ⟨none⟩).1).2 = true :=
  ⟨((cooldown_suppression 0 100).2.1 (by decide)).1,
   (cooldown_suppression 0 301).2.2 (by decide)⟩

end Ewsmon
